import Mathlib

set_option maxRecDepth 8000

/-!
Verification of the dynamic-value / adapter core of the `bee` repository.

The development shallowly embeds `src/corelib/src/value.rs` (the `Value`
tagged union, its native-type conversions, the textual parser and the
string rendering) and `src/codegen/src/to_function.rs` (the adapter
generator `impl_function`).  Machine integers are modelled as `Int` with
explicit two's-complement wrapping where the Rust code performs an `as`
cast; `f64` payloads are modelled exactly (NaN, signed infinity, or an
exact rational), which abstracts IEEE-754 rounding but preserves the
structure every property below depends on.
-/

namespace Bee

/-- Model of a Rust `f64` payload: NaN, a signed infinity, or a finite
value represented exactly as a rational.  The binary sign of zero and the
distinction between NaN bit patterns are conflated; IEEE rounding of
decimal literals is abstracted to the exact decimal value. -/
inductive F64 where
  | nan : F64
  | inf (neg : Bool) : F64
  | real (q : ℚ) : F64
deriving DecidableEq, Repr

/-- Rust `f64` equality (`==` / `PartialEq`): any comparison involving NaN
is `false`; otherwise compare the represented values. -/
def F64.beq : F64 → F64 → Bool
  | .nan, _ => false
  | _, .nan => false
  | .inf a, .inf b => a == b
  | .real a, .real b => a == b
  | _, _ => false

/-- The `Value` enum of `src/corelib/src/value.rs`. -/
inductive Value where
  | String (s : String)
  | Integer (i : Int)
  | Number (n : F64)
  | Boolean (b : Bool)
  | Bytes (bs : List Nat)
  | Nil
deriving DecidableEq, Repr

/-- Model of `derive(PartialEq)` on `Value`: structural equality, with Rust `f64`
equality (`F64.beq`) on the `Number` payload.  The source additionally
writes `impl Eq for Value {}`, asserting (but not checking) reflexivity. -/
def Value.beq : Value → Value → Bool
  | .String a, .String b => a == b
  | .Integer a, .Integer b => a == b
  | .Number a, .Number b => F64.beq a b
  | .Boolean a, .Boolean b => a == b
  | .Bytes a, .Bytes b => a == b
  | .Nil, .Nil => true
  | _, _ => false

/-- The `DataType` enum referenced by `Value::get_type` (declared in
corelib alongside `Value`; mirrored from its use in `value.rs`). -/
inductive DataType where
  | String | Integer | Number | Boolean | Bytes | Nil
deriving DecidableEq, Repr

/-- Embeds `Value::get_type` from `value.rs`. -/
def Value.get_type : Value → DataType
  | .String _ => .String
  | .Integer _ => .Integer
  | .Number _ => .Number
  | .Boolean _ => .Boolean
  | .Bytes _ => .Bytes
  | .Nil => .Nil

/-- Embeds `Value::is_nil` from `value.rs`. -/
def Value.is_nil : Value → Bool
  | .Nil => true
  | _ => false

/-- Modelled from the spec: the corelib `Error` type (§7 of the spec) is
not under `src/`; only its constructors used by the embedded code are
modelled.  `invalidType` carries the message built by
`Error::invalid_type`, `fromUtf8` models the error converted from
`String::from_utf8`, `missingArgument` the out-of-range store access, and
`unsupported` closes the model for parameter types the embedding does not
enumerate. -/
inductive Error where
  | invalidType (msg : String)
  | fromUtf8
  | missingArgument (index : Nat)
  | unsupported (msg : String)
deriving DecidableEq, Repr

/-- Model of the derived `Debug` rendering of `F64` used inside error
messages (Rust prints floats in `Debug` like `Display`; the exact digit
string is irrelevant to every property below). -/
def F64.toString : F64 → String
  | .nan => "NaN"
  | .inf neg => if neg then "-inf" else "inf"
  | .real q =>
      if q.den = 1 then ToString.toString q.num
      else ToString.toString q.num ++ "/" ++ ToString.toString q.den

/-- Model of `derive(Debug)` for `Value` (string-escape details inside the
`String` payload are simplified; no property below inspects them). -/
def valueDebugFmt : Value → String
  | .String s => "String(\x22" ++ s ++ "\x22)"
  | .Integer i => "Integer(" ++ ToString.toString i ++ ")"
  | .Number n => "Number(" ++ n.toString ++ ")"
  | .Boolean b => "Boolean(" ++ (if b then "true" else "false") ++ ")"
  | .Bytes bs => "Bytes(" ++ ToString.toString bs ++ ")"
  | .Nil => "Nil"

/-- Builds `Error::invalid_type(format!("failed to parse \x7b\x7d for \x7b:?\x7d", type_s, value))`
from the `impl_try_from!` macro body. -/
def invalidTypeErr (typeS : String) (v : Value) : Error :=
  .invalidType ("failed to parse " ++ typeS ++ " for " ++ valueDebugFmt v)

/-- Rust `v as iN` applied to an `i64`: keep the low `bits` bits, read as
two's complement. -/
def wrapSigned (bits : Nat) (v : Int) : Int :=
  (v + 2 ^ (bits - 1)) % 2 ^ bits - 2 ^ (bits - 1)

/-- Rust `v as uN` applied to an `i64`: keep the low `bits` bits, read as
unsigned. -/
def wrapUnsigned (bits : Nat) (v : Int) : Int :=
  v % 2 ^ bits

/-- Decidable equality of `Except` results, so that concrete runs of the
embedded conversions can be checked by evaluation. -/
instance {ε α : Type} [DecidableEq ε] [DecidableEq α] : DecidableEq (Except ε α) := fun
  | .ok a, .ok b =>
      if h : a = b then .isTrue (by rw [h])
      else .isFalse (fun hh => h (Except.ok.inj hh))
  | .ok _, .error _ => .isFalse (fun hh => Except.noConfusion hh)
  | .error _, .ok _ => .isFalse (fun hh => Except.noConfusion hh)
  | .error e, .error e2 =>
      if h : e = e2 then .isTrue (by rw [h])
      else .isFalse (fun hh => h (Except.error.inj hh))

/-! ### `From<T> for Value` (the `impl_into_value!` instantiations)

Widening a narrower integer into `i64` (`val.into()`) is the identity on
the represented integer, so every integer instantiation stores its
argument unchanged; the width only matters on the way back out.  Likewise
`f32 -> f64` is exact, hence the identity on the represented value. -/

/-- Embeds `impl From<i64> for Value`. -/
def valueOfI64 (v : Int) : Value := .Integer v

/-- Embeds `impl From<i32> for Value`. -/
def valueOfI32 (v : Int) : Value := .Integer v

/-- Embeds `impl From<i16> for Value`. -/
def valueOfI16 (v : Int) : Value := .Integer v

/-- Embeds `impl From<i8> for Value`. -/
def valueOfI8 (v : Int) : Value := .Integer v

/-- Embeds `impl From<u32> for Value`. -/
def valueOfU32 (v : Int) : Value := .Integer v

/-- Embeds `impl From<u16> for Value`. -/
def valueOfU16 (v : Int) : Value := .Integer v

/-- Embeds `impl From<u8> for Value`. -/
def valueOfU8 (v : Int) : Value := .Integer v

/-- Embeds `impl From<f64> for Value`. -/
def valueOfF64 (v : F64) : Value := .Number v

/-- Embeds `impl From<f32> for Value` (`f32 -> f64` widening is exact). -/
def valueOfF32 (v : F64) : Value := .Number v

/-- Embeds `impl From<&str> for Value` and `impl From<String> for Value`. -/
def valueOfString (s : String) : Value := .String s

/-- Embeds `impl From<bool> for Value`. -/
def valueOfBool (b : Bool) : Value := .Boolean b

/-- Embeds `impl From<Bytes> for Value`. -/
def valueOfBytes (bs : List Nat) : Value := .Bytes bs

/-- Embeds `impl Into<Value> for ()` — unit converts to `Nil`. -/
def valueOfUnit : Value := .Nil

/-! ### The `f64 as f32` cast, needed by `TryFrom<Value> for f32` -/

/-- Remove factors of two, with explicit fuel so that the definition is
structurally recursive (and hence evaluates inside the kernel); `n` units
of fuel always suffice to halve `n` down to its odd part. -/
def oddPartAux : Nat → Nat → Nat
  | 0, n => n
  | fuel + 1, n => if n ≠ 0 ∧ n % 2 = 0 then oddPartAux fuel (n / 2) else n

/-- Odd part of a natural number (the number with all factors of two
removed; `0` for `0`). -/
def oddPart (n : Nat) : Nat := oddPartAux n n

/-- Tests whether `n` is a power of two. -/
def isPow2 (n : Nat) : Bool := n ≠ 0 && oddPart n == 1

/-- The modelled `f64` value is exactly representable as an IEEE-754
`f32`: NaN and the infinities are, and a rational `n / 2^k` in lowest
terms is iff `k ≤ 149`, the odd part of `n` fits in 24 bits, and the
magnitude does not exceed the largest finite `f32`,
`(2^24 - 1) * 2^104`. -/
def isF32Rep : F64 → Bool
  | .nan => true
  | .inf _ => true
  | .real q =>
      isPow2 q.den && decide (q.den ≤ 2 ^ 149)
        && decide (oddPart q.num.natAbs < 2 ^ 24)
        && decide (q.num.natAbs ≤ (2 ^ 24 - 1) * 2 ^ 104 * q.den)

/-- Computes `2 ^ e` as a rational, for an integer exponent. -/
def qpow2 (e : Int) : ℚ :=
  if 0 ≤ e then ((2 : ℚ) ^ e.toNat) else 1 / (2 : ℚ) ^ (-e).toNat

/-- Round a rational to an integer, ties to even. -/
def roundTiesEven (x : ℚ) : Int :=
  let f := ⌊x⌋
  let r := x - (f : ℚ)
  if r < 1 / 2 then f
  else if 1 / 2 < r then f + 1
  else if f % 2 = 0 then f else f + 1

/-- IEEE round-to-nearest-even of a rational to `f32`, with overflow to
infinity — the behaviour of Rust's `as f32` on a finite `f64` that is not
exactly representable.  (No property below depends on this branch: the
cast is exact on every value that originated as an `f32`.) -/
def roundQToF32 (q : ℚ) : F64 :=
  if q = 0 then .real 0
  else
    let e : Int := max (-149) (Int.log 2 |q| - 23)
    let m := roundTiesEven (|q| / qpow2 e)
    let r := (m : ℚ) * qpow2 e
    if qpow2 128 ≤ r then .inf (q < 0)
    else .real (if q < 0 then -r else r)

/-- Rust `v as f32` applied to an `f64` (then viewed back as the set of
`f64` values, since every `f32` embeds exactly): the identity on values
already representable as `f32`, IEEE rounding otherwise. -/
def f64AsF32 (x : F64) : F64 :=
  if isF32Rep x then x
  else
    match x with
    | .real q => roundQToF32 q
    | other => other

/-! ### `TryFrom<Value> for T` (the `impl_try_from!` instantiations) -/

/-- Embeds `impl TryFrom<Value> for i64`  (`val as i64` is the identity). -/
def tryFromI64 : Value → Except Error Int
  | .Integer val => .ok val
  | v => .error (invalidTypeErr "i64" v)

/-- Embeds `impl TryFrom<Value> for i32`  (`val as i32` truncates). -/
def tryFromI32 : Value → Except Error Int
  | .Integer val => .ok (wrapSigned 32 val)
  | v => .error (invalidTypeErr "i32" v)

/-- Embeds `impl TryFrom<Value> for i16`. -/
def tryFromI16 : Value → Except Error Int
  | .Integer val => .ok (wrapSigned 16 val)
  | v => .error (invalidTypeErr "i16" v)

/-- Embeds `impl TryFrom<Value> for i8`. -/
def tryFromI8 : Value → Except Error Int
  | .Integer val => .ok (wrapSigned 8 val)
  | v => .error (invalidTypeErr "i8" v)

/-- Embeds `impl TryFrom<Value> for u32`. -/
def tryFromU32 : Value → Except Error Int
  | .Integer val => .ok (wrapUnsigned 32 val)
  | v => .error (invalidTypeErr "u32" v)

/-- Embeds `impl TryFrom<Value> for u16`. -/
def tryFromU16 : Value → Except Error Int
  | .Integer val => .ok (wrapUnsigned 16 val)
  | v => .error (invalidTypeErr "u16" v)

/-- Embeds `impl TryFrom<Value> for u8`. -/
def tryFromU8 : Value → Except Error Int
  | .Integer val => .ok (wrapUnsigned 8 val)
  | v => .error (invalidTypeErr "u8" v)

/-- Embeds `impl TryFrom<Value> for f64`  (`val as f64` is the identity). -/
def tryFromF64 : Value → Except Error F64
  | .Number val => .ok val
  | v => .error (invalidTypeErr "f64" v)

/-- Embeds `impl TryFrom<Value> for f32`  (`val as f32` rounds; exact on values
that came from an `f32`). -/
def tryFromF32 : Value → Except Error F64
  | .Number val => .ok (f64AsF32 val)
  | v => .error (invalidTypeErr "f32" v)

/-- Embeds `impl TryFrom<Value> for bool`. -/
def tryFromBool : Value → Except Error Bool
  | .Boolean val => .ok val
  | v => .error (invalidTypeErr "bool" v)

/-- Embeds `impl TryFrom<Value> for Bytes`. -/
def tryFromBytes : Value → Except Error (List Nat)
  | .Bytes val => .ok val
  | v => .error (invalidTypeErr "bytes" v)

/-! ### `TryFrom<Value> for String` -/

/-- UTF-8 continuation byte. -/
def isCont (b : Nat) : Bool := 0x80 ≤ b && b ≤ 0xBF

/-- Model of the validation and decoding performed by
`String::from_utf8`: accepts exactly well-formed UTF-8 (rejecting
overlong encodings, surrogate code points and values above `0x10FFFF`,
as the second byte ranges below encode). -/
def utf8Decode : List Nat → Option (List Char)
  | [] => some []
  | b :: rest =>
    if b ≤ 0x7F then
      (utf8Decode rest).map (fun cs => Char.ofNat b :: cs)
    else if 0xC2 ≤ b && b ≤ 0xDF then
      match rest with
      | b2 :: rest2 =>
          if isCont b2 then
            (utf8Decode rest2).map
              (fun cs => Char.ofNat ((b - 0xC0) * 0x40 + (b2 - 0x80)) :: cs)
          else none
      | _ => none
    else if 0xE0 ≤ b && b ≤ 0xEF then
      match rest with
      | b2 :: b3 :: rest3 =>
          let lo2 := if b = 0xE0 then 0xA0 else 0x80
          let hi2 := if b = 0xED then 0x9F else 0xBF
          if (lo2 ≤ b2 && b2 ≤ hi2) && isCont b3 then
            (utf8Decode rest3).map
              (fun cs =>
                Char.ofNat ((b - 0xE0) * 0x1000 + (b2 - 0x80) * 0x40 + (b3 - 0x80)) :: cs)
          else none
      | _ => none
    else if 0xF0 ≤ b && b ≤ 0xF4 then
      match rest with
      | b2 :: b3 :: b4 :: rest4 =>
          let lo2 := if b = 0xF0 then 0x90 else 0x80
          let hi2 := if b = 0xF4 then 0x8F else 0xBF
          if (lo2 ≤ b2 && b2 ≤ hi2) && isCont b3 && isCont b4 then
            (utf8Decode rest4).map
              (fun cs =>
                Char.ofNat
                  ((b - 0xF0) * 0x40000 + (b2 - 0x80) * 0x1000
                    + (b3 - 0x80) * 0x40 + (b4 - 0x80)) :: cs)
          else none
      | _ => none
    else none

/-- Embeds `impl TryFrom<Value> for String` from `value.rs`: `String` passes
through, `Integer`/`Number`/`Boolean` use `to_string`, `Bytes` goes
through `String::from_utf8` (the one fallible arm, surfaced through
`?`), `Nil` renders as the literal text `Nil`. -/
def tryFromString (value : Value) : Except Error String :=
  match value with
  | .String val => .ok val
  | .Integer val => .ok (ToString.toString val)
  | .Number val => .ok val.toString
  | .Boolean val => .ok (if val then "true" else "false")
  | .Bytes val =>
      match utf8Decode val with
      | some cs => .ok (String.mk cs)
      | none => .error .fromUtf8
  | .Nil => .ok "Nil"

/-! ### `FromStr for Value` -/

/-- Tests whether `pat` is a prefix of `s` (by characters). -/
def isPrefixOfChars : List Char → List Char → Bool
  | [], _ => true
  | _ :: _, [] => false
  | a :: as, b :: bs => a == b && isPrefixOfChars as bs

/-- Rust `str::contains` with a string pattern: `pat` occurs as a
contiguous substring of `s` (the empty pattern always matches). -/
def containsSub (s pat : List Char) : Bool :=
  isPrefixOfChars pat s ||
    match s with
    | [] => false
    | _ :: rest => containsSub rest pat

/-- Rust `str::parse::<bool>()`: exactly `true` or `false`. -/
def parseBool (s : String) : Option Bool :=
  if s = "true" then some true
  else if s = "false" then some false
  else none

/-- Numeric value of a decimal digit character. -/
def digitVal (c : Char) : Nat := c.toNat - 48

/-- Accumulate a digit string into a natural number. -/
def digitsToNat (ds : List Char) : Nat :=
  ds.foldl (fun a c => a * 10 + digitVal c) 0

/-- Split an optional single leading `+`/`-` sign. -/
def splitSign : List Char → Bool × List Char
  | '-' :: r => (true, r)
  | '+' :: r => (false, r)
  | r => (false, r)

/-- Rust `str::parse::<i64>()`: an optional sign, one or more decimal
digits, nothing else, and the value must fit in `i64` (overflow is a
parse error). -/
def parseI64 (s : String) : Option Int :=
  let (neg, ds) := splitSign s.toList
  if ds.isEmpty || !ds.all (fun c => c.isDigit) then none
  else
    let v : Int := if neg then -(digitsToNat ds : Int) else (digitsToNat ds : Int)
    if -(2 ^ 63) ≤ v ∧ v ≤ 2 ^ 63 - 1 then some v else none

/-- ASCII lower-casing, as used by the case-insensitive special forms of
Rust's float parser. -/
def asciiLower (c : Char) : Char :=
  if 'A' ≤ c && c ≤ 'Z' then Char.ofNat (c.toNat + 32) else c

/-- Longest leading run of decimal digits. -/
def spanDigits (cs : List Char) : List Char × List Char :=
  (cs.takeWhile (fun c => c.isDigit), cs.dropWhile (fun c => c.isDigit))

/-- Parse the optional exponent suffix (`e`/`E`, optional sign, one or
more digits) and require the rest of the input to be empty; returns the
exponent (`0` when absent). -/
def parseExpSuffix : List Char → Option Int
  | [] => some 0
  | e :: r =>
      if e == 'e' || e == 'E' then
        let (eneg, ds) := splitSign r
        if ds.isEmpty || !ds.all (fun c => c.isDigit) then none
        else some (if eneg then -(digitsToNat ds : Int) else (digitsToNat ds : Int))
      else none

/-- Computes `10 ^ e` as a rational, for an integer exponent. -/
def qpow10 (e : Int) : ℚ :=
  if 0 ≤ e then ((10 : ℚ) ^ e.toNat) else 1 / (10 : ℚ) ^ (-e).toNat

/-- Rust `str::parse::<f64>()`, per its documented grammar: an optional
sign followed by `inf`/`infinity`/`nan` (case-insensitive) or by decimal
digits with an optional point and an optional exponent; the whole input
must be consumed.  The resulting value is modelled as the exact decimal
rational (abstracting IEEE rounding/overflow to nearest `f64`). -/
def parseF64 (s : String) : Option F64 :=
  let (neg, r) := splitSign s.toList
  let low := r.map asciiLower
  if low = "inf".toList || low = "infinity".toList then some (.inf neg)
  else if low = "nan".toList then some .nan
  else
    let (ip, r1) := spanDigits r
    match r1 with
    | '.' :: r2 =>
        let (fp, r3) := spanDigits r2
        if ip.isEmpty && fp.isEmpty then none
        else
          match parseExpSuffix r3 with
          | none => none
          | some e =>
              let mant : ℚ := (digitsToNat (ip ++ fp) : ℚ) / (10 : ℚ) ^ fp.length
              let mag := mant * qpow10 e
              some (.real (if neg then -mag else mag))
    | _ =>
        if ip.isEmpty then none
        else
          match parseExpSuffix r1 with
          | none => none
          | some e =>
              let mag := (digitsToNat ip : ℚ) * qpow10 e
              some (.real (if neg then -mag else mag))

/-- Embeds `impl FromStr for Value` from `value.rs`: (1) if the text contains
`false` or `true`, boolean parse with fallback to `String`; (2) else if
it contains `.`, float parse with fallback to `String`; (3) else the
three exact null spellings and then the two exact nil spellings give
`Nil`; (4) else integer parse with fallback to `String`.  The function
always returns `Ok`. -/
def from_str (s : String) : Except Error Value :=
  let cs := s.toList
  let value :=
    if containsSub cs "false".toList || containsSub cs "true".toList then
      match parseBool s with
      | some v => Value.Boolean v
      | none => Value.String s
    else if containsSub cs ".".toList then
      match parseF64 s with
      | some v => Value.Number v
      | none => Value.String s
    else if s = "null" || s = "NULL" || s = "Null" then Value.Nil
    else if s = "nil" || s = "Nil" then Value.Nil
    else
      match parseI64 s with
      | some v => Value.Integer v
      | none => Value.String s
  .ok value

/-! ### `impl_function` from `src/codegen/src/to_function.rs`

The adapter generator walks the function signature's inputs, maps each
typed argument to its type and pattern, enumerates (so indices are the
original declaration positions), filters out reference types, and emits
one `args.get::<T>(index)?` extraction per surviving parameter, joined
into the call `let value = name(...)?;`.  A `self` receiver and a
reference type reaching the final match hit `unimplemented!`, modelled
as `none`. -/

/-- The fragment of `syn::Type` the generator inspects: a reference type
or any other type (a path such as `i32`). -/
inductive RsType where
  | reference (inner : RsType)
  | path (name : String)
deriving DecidableEq, Repr

/-- Models `syn::PatType`: the pattern (rendered to a string, as the generator
does) and the declared type. -/
structure RsPatType where
  pat : String
  ty : RsType
deriving DecidableEq, Repr

/-- Models `syn::FnArg`. -/
inductive RsFnArg where
  | receiver
  | typed (t : RsPatType)
deriving DecidableEq, Repr

/-- Models `syn::ItemFn`, restricted to what `impl_function` reads: the name and
the inputs of the signature. -/
structure RsItemFn where
  name : String
  inputs : List RsFnArg
deriving DecidableEq, Repr

/-- The result of `impl_function`: the extraction steps
(`args.get::<ty>(index)?`, in order) of the generated call
`let value = name(...)?;`, plus the token stream the macro actually
returns — which is the input item alone (`function_impl` is
`quote! \x7b #input \x7d`; the computed call is not emitted). -/
structure GenOutput where
  fname : String
  callArgs : List (Nat × RsType)
  emitted : RsItemFn
deriving DecidableEq, Repr

/-- Embeds `impl_function` (the argument-processing pipeline of
`to_function.rs`): map over the inputs (a receiver is
`unimplemented!`), enumerate, filter out reference-typed parameters,
and map every survivor to the extraction `args.get::<ty>(index)?`
keyed by its original index. -/
def impl_function (input : RsItemFn) : Option GenOutput :=
  match input.inputs.mapM (fun arg =>
      match arg with
      | .receiver => none
      | .typed typed => some (typed.ty, typed.pat, typed)) with
  | none => none
  | some mapped =>
      let filtered := mapped.enum.filter (fun p =>
        match p.2.1 with
        | .reference _ => false
        | _ => true)
      match filtered.mapM (fun p =>
          match p.2.1 with
          | .reference _ => none
          | ty => some (p.1, ty)) with
      | none => none
      | some callArgs => some ⟨input.name, callArgs, input⟩

/-- The native values an extraction can produce, one constructor per
parameter type the corelib conversions support. -/
inductive Native where
  | int64 (v : Int)
  | int32 (v : Int)
  | int16 (v : Int)
  | int8 (v : Int)
  | uint32 (v : Int)
  | uint16 (v : Int)
  | uint8 (v : Int)
  | float64 (v : F64)
  | float32 (v : F64)
  | boolean (b : Bool)
  | bytes (bs : List Nat)
  | str (s : String)
deriving DecidableEq, Repr

/-- Coercion of a store entry to the declared native type, dispatching on
the type's name to the corresponding `TryFrom<Value>` instantiation. -/
def coerceTo (tyName : String) (v : Value) : Except Error Native :=
  match tyName with
  | "i64" => (tryFromI64 v).map .int64
  | "i32" => (tryFromI32 v).map .int32
  | "i16" => (tryFromI16 v).map .int16
  | "i8" => (tryFromI8 v).map .int8
  | "u32" => (tryFromU32 v).map .uint32
  | "u16" => (tryFromU16 v).map .uint16
  | "u8" => (tryFromU8 v).map .uint8
  | "f64" => (tryFromF64 v).map .float64
  | "f32" => (tryFromF32 v).map .float32
  | "bool" => (tryFromBool v).map .boolean
  | "Bytes" => (tryFromBytes v).map .bytes
  | "String" => (tryFromString v).map .str
  | other => .error (.unsupported other)

/-- Modelled from the spec: the Argument Store (§4.2) and its
`args.get::<T>(index)` accessor are not under `src/`; per the spec it is
an ordered sequence of Dynamic Values with bounds-checked indexed access
that yields a missing-argument error when the index is out of range and
otherwise coerces the entry to the requested native type. -/
def argsGet (store : List Value) (ty : RsType) (i : Nat) : Except Error Native :=
  match store.get? i with
  | none => .error (.missingArgument i)
  | some v =>
      match ty with
      | .path n => coerceTo n v
      | .reference _ => .error (.unsupported "reference")

/-- Semantics of the generated call
`let value = name(args.get::<T1>(i1)?, args.get::<T2>(i2)?, ...)?;`:
Rust evaluates the argument expressions left to right, each `?`
propagating the first failure before `name` is entered; only when every
extraction succeeds is the wrapped function applied. -/
def runAdapter (g : GenOutput) (f : List Native → Except Error Value)
    (store : List Value) : Except Error Value :=
  match g.callArgs.mapM (fun p => argsGet store p.2 p.1) with
  | .error e => .error e
  | .ok natives => f natives

/-! ## Theorems -/

/-- C1: for every native scalar value of a supported type (i64, i32, i16,
i8, u32, u16, u8, f64, f32, bool, byte sequence), converting it into a
`Value` and back into the same native type succeeds and returns the
original value.  Sub-64-bit integers range over their native intervals;
an `f32` is an `f64` value satisfying `isF32Rep`, on which the `as f32`
cast is exact. -/
theorem native_value_roundtrip :
    (∀ v : Int, -(2 ^ 63) ≤ v ∧ v < 2 ^ 63 → tryFromI64 (valueOfI64 v) = .ok v)
  ∧ (∀ v : Int, -(2 ^ 31) ≤ v ∧ v < 2 ^ 31 → tryFromI32 (valueOfI32 v) = .ok v)
  ∧ (∀ v : Int, -(2 ^ 15) ≤ v ∧ v < 2 ^ 15 → tryFromI16 (valueOfI16 v) = .ok v)
  ∧ (∀ v : Int, -(2 ^ 7) ≤ v ∧ v < 2 ^ 7 → tryFromI8 (valueOfI8 v) = .ok v)
  ∧ (∀ v : Int, 0 ≤ v ∧ v < 2 ^ 32 → tryFromU32 (valueOfU32 v) = .ok v)
  ∧ (∀ v : Int, 0 ≤ v ∧ v < 2 ^ 16 → tryFromU16 (valueOfU16 v) = .ok v)
  ∧ (∀ v : Int, 0 ≤ v ∧ v < 2 ^ 8 → tryFromU8 (valueOfU8 v) = .ok v)
  ∧ (∀ v : F64, tryFromF64 (valueOfF64 v) = .ok v)
  ∧ (∀ v : F64, isF32Rep v = true → tryFromF32 (valueOfF32 v) = .ok v)
  ∧ (∀ b : Bool, tryFromBool (valueOfBool b) = .ok b)
  ∧ (∀ bs : List Nat, tryFromBytes (valueOfBytes bs) = .ok bs) := by
  refine ⟨fun v h => rfl, ?_, ?_, ?_, ?_, ?_, ?_, fun v => rfl, ?_, fun b => rfl,
    fun bs => rfl⟩
  · intro v h
    simp only [tryFromI32, valueOfI32, wrapSigned, Except.ok.injEq]
    omega
  · intro v h
    simp only [tryFromI16, valueOfI16, wrapSigned, Except.ok.injEq]
    omega
  · intro v h
    simp only [tryFromI8, valueOfI8, wrapSigned, Except.ok.injEq]
    omega
  · intro v h
    simp only [tryFromU32, valueOfU32, wrapUnsigned, Except.ok.injEq]
    omega
  · intro v h
    simp only [tryFromU16, valueOfU16, wrapUnsigned, Except.ok.injEq]
    omega
  · intro v h
    simp only [tryFromU8, valueOfU8, wrapUnsigned, Except.ok.injEq]
    omega
  · intro v h
    simp [tryFromF32, valueOfF32, f64AsF32, h]

/-- Witness for C1: the round trip evaluated at one concrete value of
each supported native type. -/
theorem native_value_roundtrip_witness :
    tryFromI64 (valueOfI64 5) = .ok 5
  ∧ tryFromI32 (valueOfI32 (-7)) = .ok (-7)
  ∧ tryFromI16 (valueOfI16 300) = .ok 300
  ∧ tryFromI8 (valueOfI8 (-128)) = .ok (-128)
  ∧ tryFromU32 (valueOfU32 4000000000) = .ok 4000000000
  ∧ tryFromU16 (valueOfU16 65535) = .ok 65535
  ∧ tryFromU8 (valueOfU8 200) = .ok 200
  ∧ tryFromF64 (valueOfF64 (.real (1001 / 100))) = .ok (.real (1001 / 100))
  ∧ tryFromF32 (valueOfF32 (.real (3 / 2))) = .ok (.real (3 / 2))
  ∧ tryFromBool (valueOfBool true) = .ok true
  ∧ tryFromBytes (valueOfBytes [9, 18]) = .ok [9, 18] :=
  ⟨native_value_roundtrip.1 5 (by decide),
   native_value_roundtrip.2.1 (-7) (by decide),
   native_value_roundtrip.2.2.1 300 (by decide),
   native_value_roundtrip.2.2.2.1 (-128) (by decide),
   native_value_roundtrip.2.2.2.2.1 4000000000 (by decide),
   native_value_roundtrip.2.2.2.2.2.1 65535 (by decide),
   native_value_roundtrip.2.2.2.2.2.2.1 200 (by decide),
   native_value_roundtrip.2.2.2.2.2.2.2.1 (.real (1001 / 100)),
   native_value_roundtrip.2.2.2.2.2.2.2.2.1 (.real (3 / 2))
     (by with_unfolding_all decide),
   native_value_roundtrip.2.2.2.2.2.2.2.2.2.1 true,
   native_value_roundtrip.2.2.2.2.2.2.2.2.2.2 [9, 18]⟩

/-- C2 counterexample: the native `String` type is associated with the
`String` variant, yet converting the cross-variant value
`Value::Integer(1)` into `String` succeeds (as does `Value::Nil`), so
"converting a value of one kind into the native type associated with the
other kind always fails with InvalidType" and "no cross-variant coercion
ever succeeds" are both refuted at this concrete input. -/
theorem cross_variant_to_string_succeeds :
    tryFromString (Value.Integer 1) = .ok "1"
  ∧ (Value.Integer 1).get_type = DataType.Integer
  ∧ tryFromString Value.Nil = .ok "Nil" := by
  refine ⟨by decide, rfl, rfl⟩

/-- C2 amended: for the eleven macro-generated target types (the
integer widths, the float widths, `bool` and `Bytes`) cross-variant
conversion always fails with an `InvalidType` error; the `String` target
is the exception, accepting every variant. -/
theorem cross_variant_strict_failure :
    (∀ v : Value, ((v.get_type == DataType.Integer) = false) →
        (∃ m, tryFromI64 v = .error (.invalidType m))
      ∧ (∃ m, tryFromI32 v = .error (.invalidType m))
      ∧ (∃ m, tryFromI16 v = .error (.invalidType m))
      ∧ (∃ m, tryFromI8 v = .error (.invalidType m))
      ∧ (∃ m, tryFromU32 v = .error (.invalidType m))
      ∧ (∃ m, tryFromU16 v = .error (.invalidType m))
      ∧ (∃ m, tryFromU8 v = .error (.invalidType m)))
  ∧ (∀ v : Value, ((v.get_type == DataType.Number) = false) →
        (∃ m, tryFromF64 v = .error (.invalidType m))
      ∧ (∃ m, tryFromF32 v = .error (.invalidType m)))
  ∧ (∀ v : Value, ((v.get_type == DataType.Boolean) = false) →
        ∃ m, tryFromBool v = .error (.invalidType m))
  ∧ (∀ v : Value, ((v.get_type == DataType.Bytes) = false) →
        ∃ m, tryFromBytes v = .error (.invalidType m)) := by
  refine ⟨?_, ?_, ?_, ?_⟩ <;> intro v h <;>
    cases v <;>
    first
      | exact ⟨⟨_, rfl⟩, ⟨_, rfl⟩, ⟨_, rfl⟩, ⟨_, rfl⟩, ⟨_, rfl⟩, ⟨_, rfl⟩, ⟨_, rfl⟩⟩
      | exact ⟨⟨_, rfl⟩, ⟨_, rfl⟩⟩
      | exact ⟨_, rfl⟩
      | simp [Value.get_type] at h

/-- Witness for C2 (amended): concrete cross-variant conversions, in
particular `Value::Number(1.0)` failing conversion to `i64` with an
`InvalidType` error rather than silently truncating. -/
theorem cross_variant_strict_failure_witness :
    (∃ m, tryFromI64 (Value.Number (.real 1)) = .error (.invalidType m))
  ∧ (∃ m, tryFromF64 (Value.Integer 1) = .error (.invalidType m))
  ∧ (∃ m, tryFromBool Value.Nil = .error (.invalidType m))
  ∧ (∃ m, tryFromBytes (Value.String "x") = .error (.invalidType m)) :=
  ⟨(cross_variant_strict_failure.1 (Value.Number (.real 1)) (by decide)).1,
   (cross_variant_strict_failure.2.1 (Value.Integer 1) (by decide)).1,
   cross_variant_strict_failure.2.2.1 Value.Nil (by decide),
   cross_variant_strict_failure.2.2.2 (Value.String "x") (by decide)⟩

/-- C10: equality on `Value` (`derive(PartialEq)` plus the bare
`impl Eq for Value`) is structural with ordinary IEEE comparison on the
`Number` payload, hence not reflexive at `Number(NaN)`, while every
other variant is equal to itself. -/
theorem value_equality_not_reflexive_at_nan :
    Value.beq (.Number .nan) (.Number .nan) = false
  ∧ (∀ s, Value.beq (.String s) (.String s) = true)
  ∧ (∀ i : Int, Value.beq (.Integer i) (.Integer i) = true)
  ∧ (∀ b, Value.beq (.Boolean b) (.Boolean b) = true)
  ∧ (∀ bs : List Nat, Value.beq (.Bytes bs) (.Bytes bs) = true)
  ∧ Value.beq .Nil .Nil = true := by
  refine ⟨rfl, ?_, ?_, ?_, ?_, rfl⟩ <;> intro x <;> simp [Value.beq]

/-- C5: textual parsing is total (every input yields `Ok`), and the
inference examples behave as specified: "10" is an Integer, "10.01" the
Number with exact value 1001/100, "true"/"false" Booleans, "10._" falls
back to a String, all five exact null/nil spellings are Nil, and "Name"
is a String. -/
theorem parse_total_with_inference :
    (∀ s : String, ∃ v, from_str s = .ok v)
  ∧ from_str "10" = .ok (.Integer 10)
  ∧ from_str "10.01" = .ok (.Number (.real (1001 / 100)))
  ∧ from_str "true" = .ok (.Boolean true)
  ∧ from_str "false" = .ok (.Boolean false)
  ∧ from_str "10._" = .ok (.String "10._")
  ∧ from_str "nil" = .ok .Nil
  ∧ from_str "Nil" = .ok .Nil
  ∧ from_str "null" = .ok .Nil
  ∧ from_str "Null" = .ok .Nil
  ∧ from_str "NULL" = .ok .Nil
  ∧ from_str "Name" = .ok (.String "Name") :=
  ⟨fun s => ⟨_, rfl⟩, by decide, by with_unfolding_all decide, by decide, by decide,
   by decide, by decide, by decide, by decide, by decide, by decide, by decide⟩

/-- C6 counterexample: `nULL` matches `null` case-insensitively and
contains neither `true`, `false` nor `.`, yet it parses to
`String("nULL")`, not `Nil` — the code compares against the three exact
spellings `null`/`NULL`/`Null` (and `nil`/`Nil`) only. -/
theorem parse_nULL_not_nil :
    ("nULL".toList.map asciiLower = "null".toList)
  ∧ containsSub "nULL".toList "true".toList = false
  ∧ containsSub "nULL".toList "false".toList = false
  ∧ containsSub "nULL".toList ".".toList = false
  ∧ from_str "nULL" = .ok (.String "nULL") :=
  ⟨by decide, by decide, by decide, by decide, by decide⟩

/-- C6 amended: exactly the five spellings `null`, `NULL`, `Null`,
`nil`, `Nil` parse to `Nil`; other case combinations of "null" fall
through to the String fallback. -/
theorem parse_nil_exact_spellings (s : String)
    (h : s = "null" ∨ s = "NULL" ∨ s = "Null" ∨ s = "nil" ∨ s = "Nil") :
    from_str s = .ok Value.Nil := by
  rcases h with h | h | h | h | h <;> subst h <;> decide

/-- Witness for C6 (amended): the first exact spelling. -/
theorem parse_nil_exact_spellings_witness : from_str "null" = .ok Value.Nil :=
  parse_nil_exact_spellings "null" (Or.inl rfl)

/-- C7: the boolean rule has highest priority — whenever the input
contains `false` or `true` as a substring, the result is the parsed
Boolean when the whole string is a boolean literal and otherwise the
String holding the input verbatim, never Number, Integer or Nil. -/
theorem bool_rule_has_highest_priority (s : String)
    (h : containsSub s.toList "false".toList = true
      ∨ containsSub s.toList "true".toList = true) :
    from_str s = .ok (if s = "true" then Value.Boolean true
      else if s = "false" then Value.Boolean false else Value.String s) := by
  have hc : (containsSub s.toList "false".toList
      || containsSub s.toList "true".toList) = true := by
    rcases h with h | h <;> rw [h] <;> simp
  simp only [from_str, hc, if_true, parseBool]
  by_cases h1 : s = "true"
  · simp [h1]
  · by_cases h2 : s = "false"
    · simp [h1, h2]
    · simp [h1, h2]

/-- Witness for C7: a string containing `true` that is not a boolean
literal parses to the String fallback even though it contains a dot. -/
theorem bool_rule_has_highest_priority_witness :
    from_str "true.01" = .ok (.String "true.01") := by
  have h := bool_rule_has_highest_priority "true.01" (Or.inr (by decide))
  simpa using h

/-- C9: parsing never produces the `Bytes` variant — every parse result
is one of String, Integer, Number, Boolean or Nil. -/
theorem parse_never_produces_bytes :
    ∀ s : String, ∃ v, from_str s = .ok v ∧ ((v.get_type == DataType.Bytes) = false) := by
  intro s
  unfold from_str
  refine ⟨_, rfl, ?_⟩
  dsimp only
  repeat first | rfl | split

/-- C8: conversion from `Value` to `String` succeeds on every variant
except possibly `Bytes`: `String` yields itself, `Integer`, `Number` and
`Boolean` their textual representation, `Nil` the literal text `Nil`;
the `Bytes` arm alone can fail, and does so with the UTF-8 decode error
exactly when the byte sequence is not valid UTF-8. -/
theorem to_string_total_except_bytes :
    (∀ s, tryFromString (Value.String s) = .ok s)
  ∧ (∀ i : Int, tryFromString (Value.Integer i) = .ok (ToString.toString i))
  ∧ (∀ n : F64, tryFromString (Value.Number n) = .ok n.toString)
  ∧ (∀ b : Bool, tryFromString (Value.Boolean b) = .ok (if b then "true" else "false"))
  ∧ tryFromString Value.Nil = .ok "Nil"
  ∧ (∀ bs cs, utf8Decode bs = some cs →
      tryFromString (Value.Bytes bs) = .ok (String.mk cs))
  ∧ (∀ bs, utf8Decode bs = none →
      tryFromString (Value.Bytes bs) = .error Error.fromUtf8) := by
  refine ⟨fun s => rfl, fun i => rfl, fun n => rfl, fun b => rfl, rfl, ?_, ?_⟩
  · intro bs cs h
    simp [tryFromString, h]
  · intro bs h
    simp [tryFromString, h]

/-- Witness for C8: a valid UTF-8 byte sequence decodes, an invalid one
fails with the decode error. -/
theorem to_string_total_except_bytes_witness :
    tryFromString (Value.Bytes [104, 105]) = .ok (String.mk ['h', 'i'])
  ∧ tryFromString (Value.Bytes [255]) = .error Error.fromUtf8 :=
  ⟨to_string_total_except_bytes.2.2.2.2.2.1 [104, 105] ['h', 'i'] (by decide),
   to_string_total_except_bytes.2.2.2.2.2.2 [255] (by decide)⟩

/-- The example signature of C3: `fn f(a: i32, conn: &Connection, s: String)`. -/
def c3Sig : RsItemFn :=
  ⟨"f", [.typed ⟨"a", .path "i32"⟩,
         .typed ⟨"conn", .reference (.path "Connection")⟩,
         .typed ⟨"s", .path "String"⟩]⟩

/-- C3: over `(i32, &Connection, String)` the generator emits exactly two
extractions, at the original positional indices 0 and 2 (skipping the
reference parameter at index 1), and the generated call applies the
wrapped function to exactly those two coerced arguments in that order —
whatever sits at store index 1 is never touched. -/
theorem adapter_skips_reference_params :
    ∃ g, impl_function c3Sig = some g
  ∧ g.callArgs = [(0, .path "i32"), (2, .path "String")]
  ∧ ∀ (f : List Native → Except Error Value) (x : Int) (s : String) (v1 : Value),
      runAdapter g f [.Integer x, v1, .String s]
        = f [.int32 (wrapSigned 32 x), .str s] := by
  refine ⟨_, rfl, rfl, ?_⟩
  intro f x s v1
  rfl

/-- Extraction sequences fail at the first failing entry: if every entry
of `pre` succeeds and `p` fails with `e`, the monadic traversal of the
whole extraction list returns `e`. -/
theorem mapM_argsGet_first_error (store : List Value)
    (p : Nat × RsType) (post : List (Nat × RsType)) (e : Error)
    (herr : argsGet store p.2 p.1 = .error e) :
    ∀ pre : List (Nat × RsType),
      (∀ q ∈ pre, (argsGet store q.2 q.1).isOk = true) →
      ((pre ++ p :: post).mapM fun r => argsGet store r.2 r.1)
        = (.error e : Except Error (List Native)) := by
  intro pre
  induction pre with
  | nil =>
      intro _
      rw [List.nil_append, List.mapM_cons, herr]
      rfl
  | cons q pre ih =>
      intro hpre
      obtain ⟨x, hx⟩ : ∃ x, argsGet store q.2 q.1 = .ok x := by
        have hq : (argsGet store q.2 q.1).isOk = true := hpre q (by simp)
        cases hqq : argsGet store q.2 q.1 with
        | ok x => exact ⟨x, rfl⟩
        | error err => rw [hqq] at hq; simp [Except.isOk, Except.toBool] at hq
      rw [List.cons_append, List.mapM_cons, hx]
      have ih2 := ih (fun r hr => hpre r (List.mem_cons_of_mem q hr))
      show (do
        let bs ← (pre ++ p :: post).mapM fun r => argsGet store r.2 r.1
        pure (x :: bs)) = (.error e : Except Error (List Native))
      rw [ih2]
      rfl

/-- C4: if extracting any parameter fails — the entries before position
`pre.length` fetch and coerce fine, and the parameter `p` fails with
error `e` — then the whole invocation returns exactly `e`, for every
wrapped function `f` alike: the native function is never executed and no
partial invocation is observable. -/
theorem adapter_aborts_before_call (g : GenOutput) (store : List Value)
    (pre : List (Nat × RsType)) (p : Nat × RsType) (post : List (Nat × RsType))
    (e : Error)
    (hsplit : g.callArgs = pre ++ p :: post)
    (hpre : ∀ q ∈ pre, (argsGet store q.2 q.1).isOk = true)
    (herr : argsGet store p.2 p.1 = .error e) :
    ∀ f, runAdapter g f store = .error e := by
  intro f
  unfold runAdapter
  rw [hsplit, mapM_argsGet_first_error store p post e herr pre hpre]

/-- Witness for C4: a store with one entry, an adapter wanting two — the
first extraction succeeds, the second is a missing argument, and the
invocation returns that error for a concrete wrapped function. -/
theorem adapter_aborts_before_call_witness :
    runAdapter ⟨"f", [(0, .path "i64"), (1, .path "bool")], ⟨"f", []⟩⟩
      (fun _ => .ok Value.Nil) [Value.Integer 3]
      = .error (.missingArgument 1) :=
  adapter_aborts_before_call
    ⟨"f", [(0, .path "i64"), (1, .path "bool")], ⟨"f", []⟩⟩
    [Value.Integer 3] [(0, .path "i64")] (1, .path "bool") [] (.missingArgument 1)
    rfl (by decide) rfl (fun _ => .ok Value.Nil)

end Bee
